import Mathlib

/-!
A shallow embedding of the MCP client (src/modules/mcp_client/client.py):
the tool-catalog adapter, the provider orchestration loops for the
anthropic and openai profiles, the configuration-driven connection, and
the interactive chat loop.  Definitions are translated from the Python
source; the theorems settle the specification claims about them.

Modelling conventions: JSON values (tool input schemas, tool arguments,
tool results) are kept as opaque strings; the LLM providers are modelled
as oracles indexed by the number of provider calls made so far; the tool
executor is a pure function from tool name and arguments to a result.
Python exceptions are modelled as Except / Option results, and the side
effects relevant to a claim (tool invocations, provider calls,
subprocess launches) are recorded in explicit event traces.
-/

/-- A tool descriptor as reported by the MCP server (one entry of
response.tools): name, description and an opaque input schema. -/
structure MCPTool where
  name : String
  description : String
  inputSchema : String
deriving DecidableEq

/-- One entry of the provider-specific tool catalog built by
_get_available_tools: the anthropic layout is the flat
name / description / input_schema record, the openai layout nests
name / description / parameters under a function object tagged
with type function. -/
inductive ToolSpec where
  | anthropic (name : String) (description : String) (input_schema : String)
  | openaiFunction (name : String) (description : String) (parameters : String)
deriving DecidableEq

/-- The tool name carried by a catalog entry, whatever the layout. -/
def ToolSpec.specName : ToolSpec → String
  | .anthropic n _ _ => n
  | .openaiFunction n _ _ => n

/-- The schema carried by a catalog entry (input_schema for the anthropic
layout, parameters for the openai layout). -/
def ToolSpec.specSchema : ToolSpec → String
  | .anthropic _ _ s => s
  | .openaiFunction _ _ s => s

/-- MCPClient._get_available_tools: formats the server tool list for the
configured provider; raises ValueError on an unknown provider. -/
def _get_available_tools (provider : String) (tools : List MCPTool) :
    Except String (List ToolSpec) :=
  if provider = "anthropic" then
    .ok (tools.map fun t => .anthropic t.name t.description t.inputSchema)
  else if provider = "openai" then
    .ok (tools.map fun t => .openaiFunction t.name t.description t.inputSchema)
  else
    .error ("Unknown provider: " ++ provider)

/-- Whether an Except value is a success (used to state that error
branches are never taken). -/
def exceptOk {ε α : Type} : Except ε α → Bool
  | .ok _ => true
  | .error _ => false

/-- The LLM handle stored on the client: Anthropic() or OpenAI(). -/
inductive LLM where
  | anthropicLLM
  | openaiLLM
deriving DecidableEq

/-- The MCPClient object state set up by __init__: the provider tag, the
LLM handle, and the (initially absent) session. -/
structure MCPClient where
  provider : String
  llm : LLM
  session : Option Unit
deriving DecidableEq

/-- MCPClient.__init__: stores the provider, builds the matching LLM
handle, and raises ValueError for any other provider string. -/
def MCPClient_init (provider : String) : Except String MCPClient :=
  if provider = "anthropic" then
    .ok { provider := provider, llm := .anthropicLLM, session := none }
  else if provider = "openai" then
    .ok { provider := provider, llm := .openaiLLM, session := none }
  else
    .error ("Unknown provider: " ++ provider)

/-- Which provider endpoint _api_call reaches: llm.messages.create for
anthropic, llm.chat.completions.create for openai. -/
inductive ApiTarget where
  | anthropicMessages
  | openaiChat
deriving DecidableEq

/-- The provider dispatch of MCPClient._api_call (the branch taken, with
ValueError on an unknown provider). -/
def _api_call_route (provider : String) : Except String ApiTarget :=
  if provider = "anthropic" then .ok .anthropicMessages
  else if provider = "openai" then .ok .openaiChat
  else .error ("Unknown provider: " ++ provider)

/-- Which provider-specific handler _get_final_text dispatches to. -/
inductive FinalTextRoute where
  | claudePath
  | openaiPath
deriving DecidableEq

/-- The provider dispatch of MCPClient._get_final_text (the branch taken,
with ValueError on an unknown provider). -/
def _get_final_text_route (provider : String) : Except String FinalTextRoute :=
  if provider = "anthropic" then .ok .claudePath
  else if provider = "openai" then .ok .openaiPath
  else .error ("Unknown provider: " ++ provider)

/-- The payload returned by session.call_tool, kept opaque. -/
structure ToolResult where
  content : String
deriving DecidableEq

/-- The bracketed line the loop appends to final_text for each executed
tool call: [Calling tool NAME with args ARGS]. -/
def callingMarker (name : String) (args : String) : String :=
  "[Calling tool " ++ name ++ " with args " ++ args ++ "]"

/-- An observable side effect of the orchestration loop: one tool
invocation via the transport session, or one provider API call. -/
inductive Ev where
  | toolCall (name : String) (args : String)
  | apiCall
deriving DecidableEq

/-- Whether a loop event is a provider API call. -/
def Ev.isApi : Ev → Bool
  | .apiCall => true
  | _ => false

/-- A content block of an anthropic completion: a text block or a
tool_use block (id, tool name, input arguments). -/
inductive CBlock where
  | text (t : String)
  | toolUse (id : String) (name : String) (input : String)
deriving DecidableEq

/-- Whether an anthropic content block is a tool-invocation request. -/
def CBlock.isToolUse : CBlock → Bool
  | .toolUse _ _ _ => true
  | _ => false

/-- The text of a text block, none for a tool_use block. -/
def CBlock.textOf : CBlock → Option String
  | .text t => some t
  | _ => none

/-- A transcript message on the anthropic path: the user query, an
assistant message holding content blocks, or the user-role tool_result
message correlating a result to its tool_use id. -/
inductive CMsg where
  | user (content : String)
  | assistant (content : List CBlock)
  | toolResult (tool_use_id : String) (content : String)
deriving DecidableEq

/-- The mutable state of _get_final_text_claude: the final_text
fragments, the accumulated assistant_message_content, the transcript,
the current response content, the number of provider calls made so far
(the oracle index), the event trace, and whether an uncaught exception
has been raised (response.content[0].text on a non-text first block). -/
structure CState where
  final_text : List String
  assistant_message_content : List CBlock
  messages : List CMsg
  response : List CBlock
  apiCount : Nat
  trace : List Ev
  error : Bool
deriving DecidableEq

/-- One iteration of the for loop of _get_final_text_claude over a
content block of the initial completion.  A text block is appended to
final_text and to assistant_message_content.  A tool_use block is
executed, the marker line is appended to final_text, the assistant and
tool_result messages are appended to the transcript, the provider is
called again at once, and the text of the first block of the fresh
completion is appended to final_text (a non-text first block raises).
Once an exception has been raised the remaining iterations do not run. -/
def claudeStep (callTool : String → String → ToolResult)
    (provider : Nat → List CBlock) (s : CState) (c : CBlock) : CState :=
  if s.error then s else
  match c with
  | .text t =>
      { s with final_text := s.final_text ++ [t],
               assistant_message_content := s.assistant_message_content ++ [c] }
  | .toolUse id name input =>
      let result := callTool name input
      let ft := s.final_text ++ [callingMarker name input]
      let amc := s.assistant_message_content ++ [c]
      let ms := s.messages ++ [CMsg.assistant amc, CMsg.toolResult id result.content]
      let tr := s.trace ++ [Ev.toolCall name input, Ev.apiCall]
      let nextResponse := provider s.apiCount
      match nextResponse.head? with
      | some (CBlock.text t0) =>
          { final_text := ft ++ [t0], assistant_message_content := amc,
            messages := ms, response := nextResponse, apiCount := s.apiCount + 1,
            trace := tr, error := false }
      | _ =>
          { final_text := ft, assistant_message_content := amc,
            messages := ms, response := nextResponse, apiCount := s.apiCount + 1,
            trace := tr, error := true }

/-- The state _get_final_text_claude starts from: empty accumulators, a
transcript already holding the user query, the initial completion as the
current response, and the oracle index of the next provider call. -/
def claudeInit (query : String) (initial : List CBlock) (startCount : Nat) : CState :=
  { final_text := [], assistant_message_content := [],
    messages := [CMsg.user query], response := initial,
    apiCount := startCount, trace := [], error := false }

/-- The full run of the for loop of _get_final_text_claude over the
initial completion content. -/
def claudeRun (callTool : String → String → ToolResult)
    (provider : Nat → List CBlock) (query : String)
    (initial : List CBlock) (startCount : Nat) : CState :=
  initial.foldl (claudeStep callTool provider) (claudeInit query initial startCount)

/-- MCPClient._get_final_text_claude: runs the loop and joins final_text
with blank lines; none models an uncaught exception. -/
def _get_final_text_claude (callTool : String → String → ToolResult)
    (provider : Nat → List CBlock) (query : String)
    (initial : List CBlock) (startCount : Nat) : Option String :=
  if (claudeRun callTool provider query initial startCount).error then none
  else some (String.intercalate "\n\n"
    (claudeRun callTool provider query initial startCount).final_text)

/-- One tool call of an openai completion message: id, function name and
the (decoded) arguments. -/
structure OAToolCall where
  id : String
  name : String
  arguments : String
deriving DecidableEq

/-- The message of an openai completion choice: the text content (empty
string models an absent content) and the tool-call list (empty models an
absent list). -/
structure OAMessage where
  content : String
  tool_calls : List OAToolCall
deriving DecidableEq

/-- A transcript message on the openai path: the user query, an echoed
assistant message, or a tool-role result message correlated by
tool_call_id. -/
inductive OAMsg where
  | user (content : String)
  | assistantMsg (m : OAMessage)
  | toolMsg (tool_call_id : String) (name : String) (content : String)
deriving DecidableEq

/-- The mutable state of _get_final_text_openai: final_text fragments,
the transcript, the number of provider calls made so far, and the event
trace. -/
structure OAState where
  final_text : List String
  messages : List OAMsg
  apiCount : Nat
  trace : List Ev
deriving DecidableEq

/-- The body of the inner for loop of _get_final_text_openai for one
tool call: execute it, append the marker line to final_text, and append
the tool-role result message to the transcript. -/
def oaToolStep (callTool : String → String → ToolResult)
    (s : OAState) (tc : OAToolCall) : OAState :=
  let tool_result := callTool tc.name tc.arguments
  { s with
      final_text := s.final_text ++ [callingMarker tc.name tc.arguments],
      trace := s.trace ++ [Ev.toolCall tc.name tc.arguments],
      messages := s.messages ++ [OAMsg.toolMsg tc.id tc.name tool_result.content] }

/-- The while loop of _get_final_text_openai, with explicit fuel (the
source enforces no bound on the number of rounds; none models running
out of fuel before the loop exits).  Each round appends the message
content to final_text when present, exits if the message carries no tool
calls, otherwise echoes the assistant message, executes every tool call
in order, and calls the provider again. -/
def openaiGo (callTool : String → String → ToolResult)
    (provider : Nat → OAMessage) :
    Nat → OAMessage → OAState → Option OAState
  | 0, _, _ => none
  | fuel + 1, message, s =>
      let s1 := if message.content = "" then s
                else { s with final_text := s.final_text ++ [message.content] }
      if message.tool_calls = [] then some s1
      else
        let s2 := { s1 with messages := s1.messages ++ [OAMsg.assistantMsg message] }
        let s3 := message.tool_calls.foldl (oaToolStep callTool) s2
        openaiGo callTool provider fuel (provider s3.apiCount)
          { s3 with apiCount := s3.apiCount + 1, trace := s3.trace ++ [Ev.apiCall] }

/-- The full run of the while loop of _get_final_text_openai starting
from the transcript holding the user query. -/
def openaiRun (callTool : String → String → ToolResult)
    (provider : Nat → OAMessage) (query : String)
    (initial : OAMessage) (startCount : Nat) (fuel : Nat) : Option OAState :=
  openaiGo callTool provider fuel initial
    { final_text := [], messages := [OAMsg.user query],
      apiCount := startCount, trace := [] }

/-- MCPClient._get_final_text_openai: runs the loop and joins final_text
with blank lines. -/
def _get_final_text_openai (callTool : String → String → ToolResult)
    (provider : Nat → OAMessage) (query : String)
    (initial : OAMessage) (startCount : Nat) (fuel : Nat) : Option String :=
  (openaiRun callTool provider query initial startCount fuel).map
    fun s => String.intercalate "\n\n" s.final_text

/-- The external world one query runs against: the tool list the session
reports, the tool executor, and the two provider oracles (indexed by the
number of provider calls made so far in the query). -/
structure Env where
  serverTools : List MCPTool
  callTool : String → String → ToolResult
  claudeProvider : Nat → List CBlock
  openaiProvider : Nat → OAMessage

/-- The anthropic path of process_query: the initial provider call is
oracle index 0, the loop runs with oracle index starting at 1.  Returns
the full provider/tool event trace (the initial call included) and the
final answer (none models an uncaught exception). -/
def process_query_claude (env : Env) (query : String) : List Ev × Option String :=
  (Ev.apiCall ::
     (claudeRun env.callTool env.claudeProvider query (env.claudeProvider 0) 1).trace,
   _get_final_text_claude env.callTool env.claudeProvider query (env.claudeProvider 0) 1)

/-- The openai path of process_query, with fuel for the unbounded while
loop. -/
def process_query_openai (env : Env) (query : String) (fuel : Nat) :
    List Ev × Option String :=
  match openaiRun env.callTool env.openaiProvider query (env.openaiProvider 0) 1 fuel with
  | some s => (Ev.apiCall :: s.trace, some (String.intercalate "\n\n" s.final_text))
  | none => ([Ev.apiCall], none)

/-- What one process_query call produced: the tool catalog it fetched
and formatted at that moment, the event trace, and the final answer. -/
structure QueryOut where
  catalog : Except String (List ToolSpec)
  trace : List Ev
  answer : Option String

/-- MCPClient.process_query: builds the fresh transcript from the query,
fetches and formats the tool catalog, makes the initial provider call
and runs the provider-specific loop.  The transcript is a local value;
the client is returned unchanged alongside the result. -/
def process_query (c : MCPClient) (env : Env) (query : String) (fuel : Nat) :
    QueryOut × MCPClient :=
  match _get_available_tools c.provider env.serverTools with
  | .error e => ({ catalog := .error e, trace := [], answer := none }, c)
  | .ok specs =>
      if c.provider = "anthropic" then
        let r := process_query_claude env query
        ({ catalog := .ok specs, trace := r.1, answer := r.2 }, c)
      else
        let r := process_query_openai env query fuel
        ({ catalog := .ok specs, trace := r.1, answer := r.2 }, c)

/-- Python str.strip(): the string without leading and trailing
whitespace. -/
def pyStrip (s : String) : String :=
  String.mk (((s.data.dropWhile Char.isWhitespace).reverse.dropWhile
    Char.isWhitespace).reverse)

/-- Python str.lower(): every character lowercased. -/
def pyLower (s : String) : String :=
  String.mk (s.data.map Char.toLower)

/-- What chat_loop does with one entered line: break out of the loop, or
process the stripped line as a query. -/
inductive ChatStep where
  | quit
  | run (query : String)
deriving DecidableEq

/-- The per-line decision of chat_loop: the line is stripped, then
compared case-insensitively against quit. -/
def chatStep (line : String) : ChatStep :=
  let query := pyStrip line
  if pyLower query = "quit" then .quit else .run query

/-- The observable outcome of a chat_loop run over a list of entered
lines: which queries were handed to process_query, what was printed, and
whether the loop terminated via quit. -/
structure ChatOutcome where
  processed : List String
  outputs : List String
  didQuit : Bool
deriving DecidableEq

/-- MCPClient.chat_loop over a list of entered lines: quit breaks the
loop; any other line is processed, its answer printed, and an exception
raised by processing is caught, printed as an Error line, and the prompt
resumes with the next line. -/
def chat_loop (process : String → Except String String) :
    List String → ChatOutcome
  | [] => { processed := [], outputs := [], didQuit := false }
  | line :: rest =>
      match chatStep line with
      | .quit => { processed := [], outputs := [], didQuit := true }
      | .run query =>
          let out := match process query with
            | .ok response => "\n" ++ response
            | .error e => "\nError: " ++ e
          let tail := chat_loop process rest
          { processed := query :: tail.processed,
            outputs := out :: tail.outputs, didQuit := tail.didQuit }

/-- One server entry of mcp_client_config.json: every field may be
absent. -/
structure ServerConf where
  command : Option String
  args : Option (List String)
  env : Option (List (String × String))
deriving DecidableEq

/-- The configuration file: the keyed mcpServers collection. -/
structure ConfigFile where
  mcpServers : List (String × ServerConf)
deriving DecidableEq

/-- The resolved command, argument list and environment the subprocess
is launched with. -/
structure StdioParams where
  command : String
  args : List String
  env : Option (List (String × String))
deriving DecidableEq

/-- The side effects of connect_to_server, in order: launching the
subprocess, entering the client session, the protocol handshake, and the
initial tool listing. -/
inductive ConnEffect where
  | launch (params : StdioParams)
  | enterSession
  | handshake
  | listToolsCall
deriving DecidableEq

/-- Lookup of a server key in the mcpServers collection. -/
def lookupServer (config : ConfigFile) (key : String) : Option ServerConf :=
  (config.mcpServers.find? fun kv => kv.1 == key).map fun kv => kv.2

/-- MCPClient.connect_to_server on a loaded configuration: a missing key
raises KeyError before anything else happens (no effects); a present
entry resolves command (default node), args (default empty) and env
(default absent) and performs the connection effects in order. -/
def connect_to_server (config : ConfigFile) (server_key : String) :
    List ConnEffect × Except String Unit :=
  match lookupServer config server_key with
  | some server_conf =>
      let params : StdioParams :=
        { command := server_conf.command.getD "node",
          args := server_conf.args.getD [],
          env := server_conf.env }
      ([ConnEffect.launch params, ConnEffect.enterSession,
        ConnEffect.handshake, ConnEffect.listToolsCall], .ok ())
  | none =>
      ([], .error ("Server key '" ++ server_key ++ "' not found in config file."))

/-- The text content of an anthropic completion, as the specification
reads it: its text blocks joined by a blank line. -/
def claudeTextContent (blocks : List CBlock) : String :=
  String.intercalate "\n\n" (blocks.filterMap CBlock.textOf)

/-- A piece of the final answer: a natural-language text fragment
observed from the model, or the marker line recording one tool call. -/
inductive Item where
  | frag (t : String)
  | marker (name : String) (args : String)
deriving DecidableEq

/-- How a piece is rendered into final_text. -/
def Item.render : Item → String
  | .frag t => t
  | .marker n a => callingMarker n a

/-- The text of a fragment piece, none for a marker. -/
def Item.fragText : Item → Option String
  | .frag t => some t
  | _ => none

/-- The chronological sequence of answer pieces the anthropic path
emits, computed directly from the initial completion and the provider
oracle: a text block yields its fragment; a tool_use block yields the
marker and then the first-block text of the next completion (none when
that completion does not start with a text block, which raises). -/
def specItemsClaude (provider : Nat → List CBlock) :
    List CBlock → Nat → Option (List Item)
  | [], _ => some []
  | CBlock.text t :: rest, k =>
      (specItemsClaude provider rest k).map fun items => Item.frag t :: items
  | CBlock.toolUse _ name input :: rest, k =>
      match (provider k).head? with
      | some (CBlock.text t0) =>
          (specItemsClaude provider rest (k + 1)).map fun items =>
            Item.marker name input :: Item.frag t0 :: items
      | _ => none

/-- The chronological sequence of answer pieces the openai path emits,
computed directly from the provider oracle: each round yields the
message content (when present) then one marker per tool call, and the
rounds continue until a message without tool calls. -/
def specItemsOpenai (provider : Nat → OAMessage) :
    Nat → Nat → OAMessage → Option (List Item)
  | 0, _, _ => none
  | fuel + 1, k, m =>
      let frags := if m.content = "" then [] else [Item.frag m.content]
      if m.tool_calls = [] then some frags
      else
        (specItemsOpenai provider fuel (k + 1) (provider k)).map fun items =>
          frags ++ m.tool_calls.map (fun tc => Item.marker tc.name tc.arguments) ++ items

theorem claudeStep_error (ct : String → String → ToolResult)
    (p : Nat → List CBlock) (s : CState) (b : CBlock) (h : s.error = true) :
    claudeStep ct p s b = s := by
  unfold claudeStep
  rw [h]
  simp

theorem claudeFold_error (ct : String → String → ToolResult)
    (p : Nat → List CBlock) :
    ∀ (blocks : List CBlock) (s : CState), s.error = true →
      blocks.foldl (claudeStep ct p) s = s := by
  intro blocks
  induction blocks with
  | nil => intro s _; rfl
  | cons b bs ih =>
      intro s h
      rw [List.foldl_cons, claudeStep_error ct p s b h]
      exact ih s h

theorem claudeStep_text (ct : String → String → ToolResult)
    (p : Nat → List CBlock) (s : CState) (t : String) (h : s.error = false) :
    claudeStep ct p s (CBlock.text t)
      = { s with final_text := s.final_text ++ [t],
                 assistant_message_content :=
                   s.assistant_message_content ++ [CBlock.text t] } := by
  unfold claudeStep
  rw [h]
  simp

theorem claude_sim (ct : String → String → ToolResult) (p : Nat → List CBlock) :
    ∀ (blocks : List CBlock) (s : CState), s.error = false →
      (specItemsClaude p blocks s.apiCount).map
          (fun items => s.final_text ++ items.map Item.render)
        = (if (blocks.foldl (claudeStep ct p) s).error = true then none
           else some (blocks.foldl (claudeStep ct p) s).final_text) := by
  intro blocks
  induction blocks with
  | nil =>
      intro s hs
      simp [specItemsClaude, hs]
  | cons b bs ih =>
      intro s hs
      cases b with
      | text t =>
          rw [List.foldl_cons, claudeStep_text ct p s t hs]
          have ih2 := ih { s with final_text := s.final_text ++ [t],
                                  assistant_message_content :=
                                    s.assistant_message_content ++ [CBlock.text t] } hs
          simp only [specItemsClaude]
          cases hrec : specItemsClaude p bs s.apiCount with
          | none =>
              rw [hrec] at ih2
              simpa using ih2
          | some its =>
              rw [hrec] at ih2
              simp only [Option.map_some'] at ih2
              simp [← ih2, Item.render]
      | toolUse tuid name input =>
          have hs' : (if s.error = true then s
              else
                match (p s.apiCount).head? with
                | some (CBlock.text t0) =>
                    { final_text := (s.final_text ++ [callingMarker name input]) ++ [t0],
                      assistant_message_content :=
                        s.assistant_message_content ++ [CBlock.toolUse tuid name input],
                      messages := s.messages ++
                        [CMsg.assistant (s.assistant_message_content ++ [CBlock.toolUse tuid name input]),
                         CMsg.toolResult tuid (ct name input).content],
                      response := p s.apiCount, apiCount := s.apiCount + 1,
                      trace := s.trace ++ [Ev.toolCall name input, Ev.apiCall],
                      error := false }
                | _ =>
                    { final_text := s.final_text ++ [callingMarker name input],
                      assistant_message_content :=
                        s.assistant_message_content ++ [CBlock.toolUse tuid name input],
                      messages := s.messages ++
                        [CMsg.assistant (s.assistant_message_content ++ [CBlock.toolUse tuid name input]),
                         CMsg.toolResult tuid (ct name input).content],
                      response := p s.apiCount, apiCount := s.apiCount + 1,
                      trace := s.trace ++ [Ev.toolCall name input, Ev.apiCall],
                      error := true }) = claudeStep ct p s (CBlock.toolUse tuid name input) := by
            unfold claudeStep
            rfl
          rw [hs] at hs'
          simp only [if_neg Bool.false_ne_true] at hs'
          rw [List.foldl_cons, ← hs']
          cases hh : (p s.apiCount).head? with
          | none =>
              simp only [specItemsClaude, hh]
              rw [claudeFold_error ct p bs _ rfl]
              simp
          | some b0 =>
              cases b0 with
              | text t0 =>
                  simp only [specItemsClaude, hh]
                  have ih2 := ih
                    { final_text := (s.final_text ++ [callingMarker name input]) ++ [t0],
                      assistant_message_content :=
                        s.assistant_message_content ++ [CBlock.toolUse tuid name input],
                      messages := s.messages ++
                        [CMsg.assistant (s.assistant_message_content ++ [CBlock.toolUse tuid name input]),
                         CMsg.toolResult tuid (ct name input).content],
                      response := p s.apiCount, apiCount := s.apiCount + 1,
                      trace := s.trace ++ [Ev.toolCall name input, Ev.apiCall],
                      error := false } rfl
                  cases hrec : specItemsClaude p bs (s.apiCount + 1) with
                  | none =>
                      rw [hrec] at ih2
                      simpa using ih2
                  | some its =>
                      rw [hrec] at ih2
                      simp only [Option.map_some'] at ih2
                      split at ih2
                      · simp at ih2
                      · rename_i herr
                        rw [Option.some_inj] at ih2
                        rw [if_neg herr, ← ih2]
                        simp [Item.render, callingMarker]
              | toolUse a c d =>
                  simp only [specItemsClaude, hh]
                  rw [claudeFold_error ct p bs _ rfl]
                  simp

theorem claude_final_spec (ct : String → String → ToolResult)
    (p : Nat → List CBlock) (q : String) (initial : List CBlock) (k : Nat) :
    _get_final_text_claude ct p q initial k
      = (specItemsClaude p initial k).map
          (fun items => String.intercalate "\n\n" (items.map Item.render)) := by
  have h := claude_sim ct p initial (claudeInit q initial k) rfl
  unfold _get_final_text_claude claudeRun
  have hk : (claudeInit q initial k).apiCount = k := rfl
  rw [hk] at h
  cases hrec : specItemsClaude p initial k with
  | none =>
      rw [hrec] at h
      simp only [Option.map_none'] at h
      split at h
      · rename_i herr
        rw [herr]
        simp [hrec]
      · simp at h
  | some its =>
      rw [hrec] at h
      simp only [Option.map_some'] at h
      split at h
      · simp at h
      · rename_i herr
        rw [Option.some_inj] at h
        rw [if_neg herr]
        have : (claudeInit q initial k).final_text = [] := rfl
        rw [this] at h
        simp at h
        simp [← h]

theorem oaToolStep_foldl (ct : String → String → ToolResult) :
    ∀ (tcs : List OAToolCall) (s : OAState),
      tcs.foldl (oaToolStep ct) s
        = { final_text := s.final_text
              ++ tcs.map (fun tc => callingMarker tc.name tc.arguments),
            messages := s.messages
              ++ tcs.map (fun tc =>
                    OAMsg.toolMsg tc.id tc.name (ct tc.name tc.arguments).content),
            apiCount := s.apiCount,
            trace := s.trace
              ++ tcs.map (fun tc => Ev.toolCall tc.name tc.arguments) } := by
  intro tcs
  induction tcs with
  | nil => intro s; simp
  | cons tc tcs ih =>
      intro s
      rw [List.foldl_cons, ih]
      simp [oaToolStep]

theorem oa_sim (ct : String → String → ToolResult) (p : Nat → OAMessage) :
    ∀ (fuel : Nat) (m : OAMessage) (s : OAState),
      (openaiGo ct p fuel m s).map OAState.final_text
        = (specItemsOpenai p fuel s.apiCount m).map
            (fun items => s.final_text ++ items.map Item.render) := by
  intro fuel
  induction fuel with
  | zero => intro m s; rfl
  | succ fuel ih =>
      intro m s
      by_cases hc : m.content = ""
      · by_cases ht : m.tool_calls = []
        · simp [openaiGo, specItemsOpenai, hc, ht, Item.render]
        · simp only [openaiGo, specItemsOpenai, hc, ht, if_neg, if_true, if_false,
            ite_true, ite_false, if_pos]
          rw [oaToolStep_foldl]
          rw [ih]
          cases hrec : specItemsOpenai p fuel (s.apiCount + 1) (p s.apiCount) with
          | none => simp [hrec]
          | some its =>
              simp [hrec, Item.render, List.map_map, Function.comp,
                List.append_assoc, callingMarker]
      · by_cases ht : m.tool_calls = []
        · simp [openaiGo, specItemsOpenai, hc, ht, Item.render]
        · simp only [openaiGo, specItemsOpenai, hc, ht, if_neg, if_true, if_false,
            ite_true, ite_false, if_pos]
          rw [oaToolStep_foldl]
          rw [ih]
          cases hrec : specItemsOpenai p fuel (s.apiCount + 1) (p s.apiCount) with
          | none => simp [hrec]
          | some its =>
              simp [hrec, Item.render, List.map_map, Function.comp,
                List.append_assoc, callingMarker]

theorem oa_final_spec (ct : String → String → ToolResult)
    (p : Nat → OAMessage) (q : String) (initial : OAMessage) (k fuel : Nat) :
    _get_final_text_openai ct p q initial k fuel
      = (specItemsOpenai p fuel k initial).map
          (fun items => String.intercalate "\n\n" (items.map Item.render)) := by
  have h := oa_sim ct p fuel initial
    { final_text := [], messages := [OAMsg.user q], apiCount := k, trace := [] }
  unfold _get_final_text_openai openaiRun
  cases hgo : openaiGo ct p fuel initial
      { final_text := [], messages := [OAMsg.user q], apiCount := k, trace := [] } with
  | none =>
      rw [hgo] at h
      simp only [Option.map_none'] at h
      cases hs2 : specItemsOpenai p fuel k initial with
      | none => rfl
      | some its => rw [hs2] at h; simp at h
  | some s2 =>
      rw [hgo] at h
      simp only [Option.map_some'] at h
      cases hrec : specItemsOpenai p fuel k initial with
      | none => rw [hrec] at h; simp at h
      | some its =>
          rw [hrec] at h
          simp only [Option.map_some', Option.some_inj] at h
          simp at h
          simp [h]

theorem head?_append_some {α : Type} (l l2 : List α) (a : α)
    (h : l.head? = some a) : (l ++ l2).head? = some a := by
  cases l with
  | nil => simp at h
  | cons x xs => simpa using h

theorem claude_textonly_fold (ct : String → String → ToolResult)
    (p : Nat → List CBlock) :
    ∀ (blocks : List CBlock) (s : CState),
      (∀ b ∈ blocks, CBlock.isToolUse b = false) → s.error = false →
      blocks.foldl (claudeStep ct p) s
        = { s with final_text := s.final_text ++ blocks.filterMap CBlock.textOf,
                   assistant_message_content :=
                     s.assistant_message_content ++ blocks } := by
  intro blocks
  induction blocks with
  | nil => intro s _ _; simp
  | cons b bs ih =>
      intro s hb hs
      cases b with
      | text t =>
          rw [List.foldl_cons, claudeStep_text ct p s t hs]
          rw [ih { s with final_text := s.final_text ++ [t],
                          assistant_message_content :=
                            s.assistant_message_content ++ [CBlock.text t] }
                (fun b hbb => hb b (List.mem_cons_of_mem _ hbb)) hs]
          simp [CBlock.textOf, List.append_assoc]
      | toolUse a n i =>
          have := hb (CBlock.toolUse a n i) (List.mem_cons_self _ _)
          simp [CBlock.isToolUse] at this

theorem claudeStep_messages_extend (ct : String → String → ToolResult)
    (p : Nat → List CBlock) (s : CState) (b : CBlock) :
    ∃ rest, (claudeStep ct p s b).messages = s.messages ++ rest := by
  unfold claudeStep
  by_cases hs : s.error = true
  · rw [if_pos hs]; exact ⟨[], by simp⟩
  · rw [if_neg hs]
    cases b with
    | text t => exact ⟨[], by simp⟩
    | toolUse a n i =>
        cases hh : (p s.apiCount).head? with
        | none => simp only [hh]; exact ⟨_, rfl⟩
        | some b0 =>
            cases b0 with
            | text t0 => simp only [hh]; exact ⟨_, rfl⟩
            | toolUse x y z => simp only [hh]; exact ⟨_, rfl⟩

theorem claudeFold_messages_extend (ct : String → String → ToolResult)
    (p : Nat → List CBlock) :
    ∀ (blocks : List CBlock) (s : CState),
      ∃ rest, (blocks.foldl (claudeStep ct p) s).messages = s.messages ++ rest := by
  intro blocks
  induction blocks with
  | nil => intro s; exact ⟨[], by simp⟩
  | cons b bs ih =>
      intro s
      rw [List.foldl_cons]
      obtain ⟨r0, h0⟩ := claudeStep_messages_extend ct p s b
      obtain ⟨r1, h1⟩ := ih (claudeStep ct p s b)
      exact ⟨r0 ++ r1, by rw [h1, h0, List.append_assoc]⟩

theorem oa_messages_extend (ct : String → String → ToolResult)
    (p : Nat → OAMessage) :
    ∀ (fuel : Nat) (m : OAMessage) (s : OAState) (s2 : OAState),
      openaiGo ct p fuel m s = some s2 →
      ∃ rest, s2.messages = s.messages ++ rest := by
  intro fuel
  induction fuel with
  | zero => intro m s s2 hgo; exact absurd hgo (by simp [openaiGo])
  | succ fuel ih =>
      intro m s s2 hgo
      by_cases ht : m.tool_calls = []
      · by_cases hc : m.content = "" <;>
          · simp only [openaiGo, ht, hc, if_true, if_false, ite_true, ite_false,
              if_pos, reduceIte] at hgo
            rw [Option.some_inj] at hgo
            exact ⟨[], by rw [← hgo]; simp⟩
      · by_cases hc : m.content = "" <;>
          · simp only [openaiGo, ht, hc, if_true, if_false, ite_true, ite_false,
              if_neg, reduceIte] at hgo
            rw [oaToolStep_foldl] at hgo
            obtain ⟨rest, hrest⟩ := ih _ _ _ hgo
            simp at hrest
            exact ⟨[OAMsg.assistantMsg m]
                ++ m.tool_calls.map
                    (fun tc => OAMsg.toolMsg tc.id tc.name (ct tc.name tc.arguments).content)
                ++ rest,
              by rw [hrest]; simp [List.append_assoc]⟩

theorem process_query_anthropic (c : MCPClient) (env : Env) (q : String)
    (fuel : Nat) (hp : c.provider = "anthropic") :
    process_query c env q fuel
      = ({ catalog := .ok (env.serverTools.map fun t =>
              ToolSpec.anthropic t.name t.description t.inputSchema),
           trace := (process_query_claude env q).1,
           answer := (process_query_claude env q).2 }, c) := by
  simp [process_query, hp, _get_available_tools]

theorem process_query_openai_route (c : MCPClient) (env : Env) (q : String)
    (fuel : Nat) (hp : c.provider = "openai") :
    process_query c env q fuel
      = ({ catalog := .ok (env.serverTools.map fun t =>
              ToolSpec.openaiFunction t.name t.description t.inputSchema),
           trace := (process_query_openai env q fuel).1,
           answer := (process_query_openai env q fuel).2 }, c) := by
  simp [process_query, hp, _get_available_tools]

/-- C5: for each recognized provider profile the tool catalog adapter
_get_available_tools succeeds and preserves every tool name and every
input schema exactly, only re-arranging the field layout; and equal
descriptor lists always yield identical output for the same profile. -/
theorem available_tools_preserve_name_and_schema :
    ∀ (p : String) (ts : List MCPTool), p = "anthropic" ∨ p = "openai" →
      ∃ out, _get_available_tools p ts = .ok out
        ∧ out.map ToolSpec.specName = ts.map MCPTool.name
        ∧ out.map ToolSpec.specSchema = ts.map MCPTool.inputSchema
        ∧ ∀ ts2, ts2 = ts → _get_available_tools p ts2 = .ok out := by
  intro p ts hp
  cases hp with
  | inl h =>
      subst h
      refine ⟨ts.map fun t => ToolSpec.anthropic t.name t.description t.inputSchema,
        ?_, ?_, ?_, ?_⟩
      · simp [_get_available_tools]
      · simp [List.map_map, Function.comp, ToolSpec.specName]
      · simp [List.map_map, Function.comp, ToolSpec.specSchema]
      · intro ts2 h2
        subst h2
        simp [_get_available_tools]
  | inr h =>
      subst h
      refine ⟨ts.map fun t => ToolSpec.openaiFunction t.name t.description t.inputSchema,
        ?_, ?_, ?_, ?_⟩
      · simp [_get_available_tools]
      · simp [List.map_map, Function.comp, ToolSpec.specName]
      · simp [List.map_map, Function.comp, ToolSpec.specSchema]
      · intro ts2 h2
        subst h2
        simp [_get_available_tools]

/-- C5 witness: the adapter on the openai profile and a concrete
one-tool descriptor list. -/
theorem available_tools_preserve_name_and_schema_witness :
    ∃ out, _get_available_tools "openai"
          [{ name := "add", description := "adds numbers", inputSchema := "schemaA" }]
        = .ok out
      ∧ out.map ToolSpec.specName
          = [MCPTool.mk "add" "adds numbers" "schemaA"].map MCPTool.name
      ∧ out.map ToolSpec.specSchema
          = [MCPTool.mk "add" "adds numbers" "schemaA"].map MCPTool.inputSchema
      ∧ ∀ ts2, ts2 = [MCPTool.mk "add" "adds numbers" "schemaA"] →
          _get_available_tools "openai" ts2 = .ok out :=
  available_tools_preserve_name_and_schema "openai"
    [{ name := "add", description := "adds numbers", inputSchema := "schemaA" }]
    (Or.inr rfl)

/-- C6: connect_to_server on a server key absent from the mcpServers map
fails with the KeyError naming the missing key and performs no effect at
all: no subprocess launch, no session creation. -/
theorem connect_unknown_key_fails_before_launch :
    ∀ (config : ConfigFile) (key : String), lookupServer config key = none →
      connect_to_server config key
        = ([], .error ("Server key '" ++ key ++ "' not found in config file.")) := by
  intro config key h
  unfold connect_to_server
  rw [h]

/-- C6 witness: connecting with key ghost against a configuration that
only knows the key dummy. -/
theorem connect_unknown_key_fails_before_launch_witness :
    connect_to_server
        { mcpServers :=
            [("dummy", { command := some "node", args := some [], env := none })] }
        "ghost"
      = ([], .error ("Server key '" ++ "ghost" ++ "' not found in config file.")) :=
  connect_unknown_key_fails_before_launch
    { mcpServers :=
        [("dummy", { command := some "node", args := some [], env := none })] }
    "ghost" rfl

/-- C7: an unrecognized provider is rejected with ValueError at
construction time, and every successfully constructed client has
provider anthropic or openai, so the unknown-provider error branches of
_get_available_tools, _api_call and _get_final_text are never taken. -/
theorem unknown_provider_fatal_at_construction :
    (∀ p, p ≠ "anthropic" → p ≠ "openai" →
        MCPClient_init p = .error ("Unknown provider: " ++ p))
    ∧ (∀ p c, MCPClient_init p = .ok c →
        (c.provider = "anthropic" ∨ c.provider = "openai")
        ∧ (∀ ts, exceptOk (_get_available_tools c.provider ts) = true)
        ∧ exceptOk (_api_call_route c.provider) = true
        ∧ exceptOk (_get_final_text_route c.provider) = true) := by
  constructor
  · intro p h1 h2
    unfold MCPClient_init
    rw [if_neg h1, if_neg h2]
  · intro p c h
    unfold MCPClient_init at h
    by_cases h1 : p = "anthropic"
    · rw [if_pos h1] at h
      injection h with h2
      subst h2
      subst h1
      refine ⟨Or.inl rfl, fun ts => ?_, rfl, rfl⟩
      simp [_get_available_tools, exceptOk]
    · rw [if_neg h1] at h
      by_cases h2 : p = "openai"
      · rw [if_pos h2] at h
        injection h with h3
        subst h3
        subst h2
        refine ⟨Or.inr rfl, fun ts => ?_, rfl, rfl⟩
        simp [_get_available_tools, exceptOk]
      · rw [if_neg h2] at h
        simp at h

/-- C7 witness: the provider string gpt is rejected at construction, and
the client constructed for anthropic never reaches an unknown-provider
branch. -/
theorem unknown_provider_fatal_at_construction_witness :
    MCPClient_init "gpt" = .error ("Unknown provider: " ++ "gpt")
    ∧ (("anthropic" = "anthropic" ∨ "anthropic" = "openai")
       ∧ (∀ ts, exceptOk (_get_available_tools "anthropic" ts) = true)
       ∧ exceptOk (_api_call_route "anthropic") = true
       ∧ exceptOk (_get_final_text_route "anthropic") = true) := by
  constructor
  · exact unknown_provider_fatal_at_construction.1 "gpt" (by decide) (by decide)
  · exact unknown_provider_fatal_at_construction.2 "anthropic"
      { provider := "anthropic", llm := .anthropicLLM, session := none } rfl

/-- C10: connect_to_server treats missing fields of a present server
entry as defaults rather than as malformed configuration: a missing
command defaults to node, missing args to the empty list, a missing env
to no environment, and the subprocess is launched with those values. -/
theorem connect_defaults_for_missing_fields :
    ∀ (config : ConfigFile) (key : String) (conf : ServerConf),
      lookupServer config key = some conf →
      connect_to_server config key
        = ([ConnEffect.launch
              { command := conf.command.getD "node",
                args := conf.args.getD [],
                env := conf.env },
            ConnEffect.enterSession, ConnEffect.handshake,
            ConnEffect.listToolsCall], .ok ()) := by
  intro config key conf h
  unfold connect_to_server
  rw [h]

/-- C10 witness: an entry with every field missing launches node with no
arguments and no environment. -/
theorem connect_defaults_for_missing_fields_witness :
    connect_to_server
        { mcpServers := [("s1", { command := none, args := none, env := none })] }
        "s1"
      = ([ConnEffect.launch { command := "node", args := [], env := none },
          ConnEffect.enterSession, ConnEffect.handshake,
          ConnEffect.listToolsCall], .ok ()) :=
  connect_defaults_for_missing_fields
    { mcpServers := [("s1", { command := none, args := none, env := none })] }
    "s1" { command := none, args := none, env := none } rfl

/-- C8 counterexample: the loop also quits on the entered line built of
a space and the word quit, although that line does not equal quit
case-insensitively: the quit test runs on the stripped line, so the
claim as stated is false. -/
theorem chat_quit_checked_after_strip :
    ¬ ((chatStep " quit" = ChatStep.quit) ↔ (pyLower " quit" = "quit")) := by
  decide

/-- C8 amended: the chat loop terminates exactly when the entered line,
stripped of surrounding whitespace, equals quit case-insensitively;
every other line is processed (stripped) as a query whatever the result
of processing, and an error while processing is printed as an inline
Error line with the prompt resuming on the next line. -/
theorem chat_loop_strip_quit_and_resume :
    (∀ line : String,
        chatStep line = ChatStep.quit ↔ pyLower (pyStrip line) = "quit")
    ∧ (∀ (process : String → Except String String) (lines : List String),
        (chat_loop process lines).processed
            = (lines.takeWhile fun l => !(pyLower (pyStrip l) == "quit")).map pyStrip
        ∧ (chat_loop process lines).didQuit
            = (lines.any fun l => pyLower (pyStrip l) == "quit"))
    ∧ (∀ (process : String → Except String String) (line : String)
          (rest : List String),
        (chat_loop process (line :: rest)).outputs
          = if pyLower (pyStrip line) = "quit" then []
            else (match process (pyStrip line) with
                  | .ok r => "\n" ++ r
                  | .error e => "\nError: " ++ e)
                 :: (chat_loop process rest).outputs) := by
  refine ⟨?_, ?_, ?_⟩
  · intro line
    by_cases h : pyLower (pyStrip line) = "quit" <;> simp [chatStep, h]
  · intro process lines
    induction lines with
    | nil => simp [chat_loop]
    | cons l rest ih =>
        by_cases h : pyLower (pyStrip l) = "quit"
        · simp [chat_loop, chatStep, h]
        · simp [chat_loop, chatStep, h, ih]
  · intro process line rest
    by_cases h : pyLower (pyStrip line) = "quit"
    · simp [chat_loop, chatStep, h]
    · cases hp : process (pyStrip line) <;> simp [chat_loop, chatStep, h, hp]

/-- Tool executor used in concrete runs: every invocation returns the
content 4. -/
def evalTool : String → String → ToolResult := fun _ _ => { content := "4" }

/-- Provider oracle whose every completion is one text block. -/
def oneTextProvider : Nat → List CBlock := fun _ => [CBlock.text "ok"]

/-- An anthropic completion carrying two tool-invocation requests. -/
def twoToolCompletion : List CBlock :=
  [CBlock.toolUse "id1" "add" "a 2 b 2", CBlock.toolUse "id2" "mul" "x 3"]

/-- C1 is refuted on the anthropic path: running the loop on a
completion with two tool-invocation requests yields the event trace
tool, api, tool, api: the provider is called again immediately after the
first invocation, while the second request of the same completion is
still pending, so only one of the two invocations precedes the next
provider call instead of both. -/
theorem claude_two_tool_requests_interleaved_trace :
    (claudeRun evalTool oneTextProvider "q" twoToolCompletion 1).trace
        = [Ev.toolCall "add" "a 2 b 2", Ev.apiCall,
           Ev.toolCall "mul" "x 3", Ev.apiCall]
    ∧ ((claudeRun evalTool oneTextProvider "q" twoToolCompletion 1).trace.takeWhile
          (fun e => !(Ev.isApi e))).length = 1
    ∧ (twoToolCompletion.filter CBlock.isToolUse).length = 2 :=
  ⟨rfl, rfl, rfl⟩

/-- Provider oracle whose completions hold a text block followed by a
tool-invocation request. -/
def textThenToolProvider : Nat → List CBlock :=
  fun _ => [CBlock.text "t", CBlock.toolUse "id2" "mul" "x 3"]

/-- An anthropic completion carrying one tool-invocation request. -/
def oneToolCompletion : List CBlock := [CBlock.toolUse "id1" "add" "a 2 b 2"]

/-- C2 is refuted on the anthropic path: after the single request of the
initial completion is executed, the next returned completion still
carries a tool-invocation request, yet the loop terminates normally
without executing it: the trace holds exactly one tool invocation and a
final answer is returned although the last completion carries a pending
tool request, because the loop only iterates the initial completion. -/
theorem claude_intermediate_tool_request_never_executed :
    (claudeRun evalTool textThenToolProvider "q" oneToolCompletion 1).trace
        = [Ev.toolCall "add" "a 2 b 2", Ev.apiCall]
    ∧ _get_final_text_claude evalTool textThenToolProvider "q" oneToolCompletion 1
        = some "[Calling tool add with args a 2 b 2]\n\nt"
    ∧ (textThenToolProvider 1).any CBlock.isToolUse = true :=
  ⟨rfl, rfl, rfl⟩

/-- C3: a completion with zero tool-invocation requests makes
process_query terminate after exactly one provider round trip, with no
tool invocation and no further provider call, and the final answer is
that completion text content, on both provider profiles. -/
theorem process_query_zero_tool_requests_one_round_trip :
    ∀ (c : MCPClient) (env : Env) (q : String) (fuel : Nat),
      (c.provider = "anthropic" →
        (∀ b ∈ env.claudeProvider 0, CBlock.isToolUse b = false) →
        (process_query c env q fuel).1.trace = [Ev.apiCall]
        ∧ (process_query c env q fuel).1.answer
            = some (claudeTextContent (env.claudeProvider 0)))
      ∧ (c.provider = "openai" →
        (env.openaiProvider 0).tool_calls = [] → 1 ≤ fuel →
        (process_query c env q fuel).1.trace = [Ev.apiCall]
        ∧ (process_query c env q fuel).1.answer
            = some (env.openaiProvider 0).content) := by
  intro c env q fuel
  constructor
  · intro hp hb
    have hrun : claudeRun env.callTool env.claudeProvider q (env.claudeProvider 0) 1
        = { claudeInit q (env.claudeProvider 0) 1 with
              final_text := [] ++ (env.claudeProvider 0).filterMap CBlock.textOf,
              assistant_message_content := [] ++ env.claudeProvider 0 } := by
      unfold claudeRun
      exact claude_textonly_fold env.callTool env.claudeProvider
        (env.claudeProvider 0) (claudeInit q (env.claudeProvider 0) 1) hb rfl
    rw [process_query_anthropic c env q fuel hp]
    constructor
    · simp [process_query_claude, hrun, claudeInit]
    · simp [process_query_claude, _get_final_text_claude, hrun, claudeInit,
        claudeTextContent]
  · intro hp ht hf
    cases fuel with
    | zero => exact absurd hf (by omega)
    | succ n =>
        rw [process_query_openai_route c env q (n + 1) hp]
        have hgo : openaiRun env.callTool env.openaiProvider q
            (env.openaiProvider 0) 1 (n + 1)
            = some (if (env.openaiProvider 0).content = ""
                then { final_text := [], messages := [OAMsg.user q],
                       apiCount := 1, trace := [] }
                else { final_text := [(env.openaiProvider 0).content],
                       messages := [OAMsg.user q], apiCount := 1, trace := [] }) := by
          unfold openaiRun openaiGo
          by_cases hc : (env.openaiProvider 0).content = "" <;> simp [hc, ht]
        by_cases hc : (env.openaiProvider 0).content = ""
        · rw [if_pos hc] at hgo
          constructor
          · simp [process_query_openai, hgo]
          · simp [process_query_openai, hgo, hc]
            rfl
        · rw [if_neg hc] at hgo
          constructor
          · simp [process_query_openai, hgo]
          · simp [process_query_openai, hgo]
            rfl

/-- C3 witness: an anthropic client against a provider whose first
completion is a single text block, with fuel one. -/
theorem process_query_zero_tool_requests_one_round_trip_witness :
    ((process_query { provider := "anthropic", llm := .anthropicLLM, session := none }
        { serverTools := [], callTool := evalTool,
          claudeProvider := fun _ => [CBlock.text "four"],
          openaiProvider := fun _ => { content := "four", tool_calls := [] } }
        "what is 2 plus 2" 1).1.trace = [Ev.apiCall]
      ∧ (process_query { provider := "anthropic", llm := .anthropicLLM, session := none }
          { serverTools := [], callTool := evalTool,
            claudeProvider := fun _ => [CBlock.text "four"],
            openaiProvider := fun _ => { content := "four", tool_calls := [] } }
          "what is 2 plus 2" 1).1.answer
        = some (claudeTextContent
            ((fun _ => [CBlock.text "four"]) 0))) :=
  (process_query_zero_tool_requests_one_round_trip
      { provider := "anthropic", llm := .anthropicLLM, session := none }
      { serverTools := [], callTool := evalTool,
        claudeProvider := fun _ => [CBlock.text "four"],
        openaiProvider := fun _ => { content := "four", tool_calls := [] } }
      "what is 2 plus 2" 1).1 rfl (by decide)

/-- Openai provider oracle for the C4 counterexample: the first
completion carries text a and one tool call, the second carries text b
and no tool call. -/
def markerCexProvider : Nat → OAMessage :=
  fun k => if k = 0
    then { content := "a",
           tool_calls := [{ id := "id1", name := "add", arguments := "a 2 b 2" }] }
    else { content := "b", tool_calls := [] }

/-- C4 is refuted: on this two-round openai run the final answer holds
the bracketed tool-call marker line between the two text fragments, so
it is not the blank-line concatenation of the text fragments alone. -/
theorem final_answer_contains_tool_markers :
    _get_final_text_openai evalTool markerCexProvider "q" (markerCexProvider 0) 1 2
        = some "a\n\n[Calling tool add with args a 2 b 2]\n\nb"
    ∧ (specItemsOpenai markerCexProvider 2 1 (markerCexProvider 0)).map
          (fun items => String.intercalate "\n\n" (items.filterMap Item.fragText))
        = some "a\n\nb"
    ∧ _get_final_text_openai evalTool markerCexProvider "q" (markerCexProvider 0) 1 2
        ≠ (specItemsOpenai markerCexProvider 2 1 (markerCexProvider 0)).map
            (fun items => String.intercalate "\n\n" (items.filterMap Item.fragText)) :=
  ⟨rfl, rfl, by decide⟩

/-- C4 amended: on both provider profiles the final answer is the
blank-line join, in chronological emission order, of the observed text
fragments together with one bracketed tool-call marker line per executed
tool invocation, and nothing else; on the anthropic path each
intermediate completion contributes only the text of its first content
block. -/
theorem final_answer_renders_fragments_and_markers :
    (∀ (ct : String → String → ToolResult) (p : Nat → List CBlock)
        (q : String) (initial : List CBlock) (k : Nat),
      _get_final_text_claude ct p q initial k
        = (specItemsClaude p initial k).map
            (fun items => String.intercalate "\n\n" (items.map Item.render)))
    ∧ (∀ (ct : String → String → ToolResult) (p : Nat → OAMessage)
        (q : String) (initial : OAMessage) (k fuel : Nat),
      _get_final_text_openai ct p q initial k fuel
        = (specItemsOpenai p fuel k initial).map
            (fun items => String.intercalate "\n\n" (items.map Item.render))) :=
  ⟨claude_final_spec, oa_final_spec⟩

/-- C9: process_query is frame-preserving and stateless across queries:
it returns the client with provider, llm and session unchanged; the
catalog it uses is formatted from the tool list fetched at call time; a
second query on the returned client behaves exactly as on the original
client; and on both profiles the transcript built by the run starts with
the single user message holding the query. -/
theorem process_query_frame_and_fresh_state :
    ∀ (c : MCPClient) (env : Env) (q : String) (fuel : Nat),
      (process_query c env q fuel).2 = c
      ∧ (process_query c env q fuel).1.catalog
          = _get_available_tools c.provider env.serverTools
      ∧ (∀ q2 fuel2, process_query (process_query c env q fuel).2 env q2 fuel2
            = process_query c env q2 fuel2)
      ∧ (claudeRun env.callTool env.claudeProvider q
            (env.claudeProvider 0) 1).messages.head? = some (CMsg.user q)
      ∧ (∀ s2, openaiRun env.callTool env.openaiProvider q
            (env.openaiProvider 0) 1 fuel = some s2 →
          s2.messages.head? = some (OAMsg.user q)) := by
  intro c env q fuel
  have hsnd : (process_query c env q fuel).2 = c := by
    unfold process_query
    cases _get_available_tools c.provider env.serverTools <;> simp [apply_ite]
  refine ⟨hsnd, ?_, ?_, ?_, ?_⟩
  · unfold process_query
    cases h : _get_available_tools c.provider env.serverTools <;> simp [apply_ite]
  · intro q2 fuel2
    rw [hsnd]
  · obtain ⟨rest, hrest⟩ := claudeFold_messages_extend env.callTool
      env.claudeProvider (env.claudeProvider 0)
      (claudeInit q (env.claudeProvider 0) 1)
    unfold claudeRun
    rw [hrest]
    simp [claudeInit]
  · intro s2 h
    unfold openaiRun at h
    obtain ⟨rest, hrest⟩ := oa_messages_extend env.callTool env.openaiProvider
      fuel (env.openaiProvider 0)
      { final_text := [], messages := [OAMsg.user q], apiCount := 1, trace := [] }
      s2 h
    rw [hrest]
    simp

/-- C9 witness: a concrete openai client, environment and fuel, with the
loop run discharged on an explicit terminal state. -/
theorem process_query_frame_and_fresh_state_witness :
    (process_query { provider := "openai", llm := .openaiLLM, session := none }
        { serverTools := [], callTool := evalTool,
          claudeProvider := fun _ => [CBlock.text "hi"],
          openaiProvider := fun _ => { content := "hi", tool_calls := [] } }
        "a" 1).2
      = { provider := "openai", llm := .openaiLLM, session := none }
    ∧ ({ final_text := ["hi"], messages := [OAMsg.user "a"],
         apiCount := 1, trace := [] } : OAState).messages.head?
        = some (OAMsg.user "a") := by
  constructor
  · exact (process_query_frame_and_fresh_state
      { provider := "openai", llm := .openaiLLM, session := none }
      { serverTools := [], callTool := evalTool,
        claudeProvider := fun _ => [CBlock.text "hi"],
        openaiProvider := fun _ => { content := "hi", tool_calls := [] } }
      "a" 1).1
  · exact (process_query_frame_and_fresh_state
      { provider := "openai", llm := .openaiLLM, session := none }
      { serverTools := [], callTool := evalTool,
        claudeProvider := fun _ => [CBlock.text "hi"],
        openaiProvider := fun _ => { content := "hi", tool_calls := [] } }
      "a" 1).2.2.2.2
      { final_text := ["hi"], messages := [OAMsg.user "a"],
        apiCount := 1, trace := [] } rfl
